import Mathlib

/-!
Verification of the IMDbScraper repository against its specification.

The development shallowly embeds the Python/Django sources:

* `movies/models.py` — the `Movie` model and the `Genre`/`TitleType` enums;
* `movies/urls.py` and `movies/views.py` — URL routing and the REST views;
* `movies/management/commands/scrape_movies.py` — argument validation,
  URL construction, the Playwright fetch loop, the BeautifulSoup page
  scraper, and the bulk upsert `save_movies`.

Database state is modelled as a list of `MovieRec` values (rows of the
single movie table); HTTP dispatch is modelled over path segments and an
HTTP method; Python exceptions become `Except`/explicit result values.
-/

namespace IMDbScraper

/-! ## Data model (`movies/models.py`) -/

/-- Kinds of Django model fields used by the `Movie` model.  Each carries
the options that appear in `models.py`. -/
inductive FieldKind where
  | charField (maxLength : Nat) (unique : Bool) (nullable : Bool)
  | floatField (nullable : Bool)
  | textField (nullable : Bool)
deriving DecidableEq, Repr

/-- The declared fields of the `Movie` model, in source order
(`movies/models.py`, lines 6–14).  The implicit auto primary key is kept
out of the list, matching the spec's field enumeration which also omits it. -/
def movieModelFields : List (String × FieldKind) :=
  [ ("title", .charField 255 true false)
  , ("release_year", .charField 4 false true)
  , ("duration", .charField 10 false true)
  , ("category", .charField 4 false true)
  , ("imdb_rating", .floatField true)
  , ("director", .textField true)
  , ("cast", .textField true)
  , ("plot_summary", .textField true) ]

/-- Whether a field kind is a relationship (foreign key or similar).  No
field of `models.py` is; the constructor list has no relational kind. -/
def FieldKind.isRelation : FieldKind → Bool
  | _ => false

/-- Values of the `Genre` enum (`movies/models.py`, lines 20–24). -/
def genreValues : List String := ["comedy", "action", "drama", "horror"]

/-- Values of the `TitleType` enum (`movies/models.py`, lines 27–30). -/
def titleTypeValues : List String := ["feature", "tv_series", "short"]

/-- A row of the movie table.  `id` is the auto primary key; the remaining
fields mirror `models.py`.  Nullable columns are `Option`s; `title` is
non-null and carries a unique constraint (expressed as a `Nodup`
hypothesis where a theorem needs it). -/
structure MovieRec where
  id : Nat
  title : String
  release_year : Option String
  imdb_rating : Option String
  director : Option String
  cast : Option String
  plot_summary : Option String
  duration : Option String
  category : Option String
deriving DecidableEq, Repr

/-! ## URL routing and the REST views (`movies/urls.py`, `movies/views.py`) -/

/-- HTTP methods relevant to the routed views. -/
inductive Method where
  | GET | POST | PUT | DELETE | PATCH
deriving DecidableEq, Repr

/-- Result of resolving a request path (split into slash-separated
segments) against `urlpatterns` in `movies/urls.py`:
`movies/` goes to `MovieListView` and `movies/<str:title>/` to
`MovieDetailView`; the `str` converter matches any non-empty string
without a slash. -/
inductive Route where
  | listRoute
  | detailRoute (title : String)
  | noMatch
deriving DecidableEq, Repr

/-- URL resolution over path segments (`movies/urls.py`, lines 5–8). -/
def resolve : List String → Route
  | [s] => if s = "movies" then .listRoute else .noMatch
  | [s, t] =>
      if s = "movies" then (if t = "" then .noMatch else .detailRoute t)
      else .noMatch
  | _ => .noMatch

/-- The operation a routed request reaches.  `MovieListView` defines only
`get`; `MovieDetailView` defines `get`, `post`, `put` and `delete`
(`movies/views.py`, lines 14–56).  Any other method on a matched route is
answered 405 by the framework; an unmatched path is 404.  (The framework's
default HEAD/OPTIONS handlers are outside the model.) -/
inductive Operation where
  | listMovies
  | detailGet (title : String)
  | detailPost (title : String)
  | detailPut (title : String)
  | detailDelete (title : String)
  | methodNotAllowed
  | noRoute
deriving DecidableEq, Repr

/-- Dispatch of a request to the handler it reaches, following
`urls.py` and the handler methods defined on the two view classes. -/
def dispatch (m : Method) (segs : List String) : Operation :=
  match resolve segs with
  | .listRoute => if m = .GET then .listMovies else .methodNotAllowed
  | .detailRoute t =>
      match m with
      | .GET => .detailGet t
      | .POST => .detailPost t
      | .PUT => .detailPut t
      | .DELETE => .detailDelete t
      | .PATCH => .methodNotAllowed
  | .noMatch => .noRoute

/-- ASCII lowercasing of one character, the case folding behind the
database's case-insensitive `iexact` comparison. -/
def lowerChar (c : Char) : Char :=
  if 65 ≤ c.toNat ∧ c.toNat ≤ 90 then Char.ofNat (c.toNat + 32) else c

/-- ASCII lowercasing of a string. -/
def lowerStr (s : String) : String := String.mk (s.data.map lowerChar)

/-- The rows matching `title__iexact=t`: case-insensitive exact title
comparison, as used by all three detail handlers in `movies/views.py`. -/
def iexactMatches (db : List MovieRec) (t : String) : List MovieRec :=
  db.filter (fun r => lowerStr r.title = lowerStr t)

/-- Outcome of `Movie.objects.get(title__iexact=t)`: the unique match,
or the `DoesNotExist` exception, or `MultipleObjectsReturned` when more
than one row matches. -/
inductive GetResult where
  | found (r : MovieRec)
  | doesNotExist
  | multipleReturned
deriving DecidableEq, Repr

/-- `Movie.objects.get(title__iexact=t)` over the modelled table. -/
def objectsGet (db : List MovieRec) (t : String) : GetResult :=
  match iexactMatches db t with
  | [] => .doesNotExist
  | [r] => .found r
  | _ :: _ :: _ => .multipleReturned

/-- Result of the detail GET handler (`views.py`, lines 15–22):
200 with the serialized movie, 404 `"Movie not found"`, or an uncaught
`MultipleObjectsReturned` propagating as a server error. -/
inductive DetailGetRes where
  | ok200 (r : MovieRec)
  | notFound404
  | uncaughtError
deriving DecidableEq, Repr

/-- The detail GET handler. -/
def detailGetView (db : List MovieRec) (t : String) : DetailGetRes :=
  match objectsGet db t with
  | .found r => .ok200 r
  | .doesNotExist => .notFound404
  | .multipleReturned => .uncaughtError

/-- Result of the detail DELETE handler (`views.py`, lines 43–49):
204 `"Movie deleted successfully"`, 404 `"Movie not found"`, or an
uncaught `MultipleObjectsReturned`. -/
inductive DetailDeleteRes where
  | noContent204
  | notFound404
  | uncaughtError
deriving DecidableEq, Repr

/-- The detail DELETE handler: on a unique match the row is deleted by
primary key (a hard delete); `DoesNotExist` is caught and answered 404
with the table untouched. -/
def detailDeleteView (db : List MovieRec) (t : String) :
    List MovieRec × DetailDeleteRes :=
  match objectsGet db t with
  | .found r => (db.filter (fun x => x.id ≠ r.id), .noContent204)
  | .doesNotExist => (db, .notFound404)
  | .multipleReturned => (db, .uncaughtError)

/-- Result of the detail PUT handler (`views.py`, lines 31–41):
200 with the updated movie, 400 on serializer errors, 404, or an
uncaught `MultipleObjectsReturned`. -/
inductive DetailPutRes where
  | ok200 (r : MovieRec)
  | badRequest400
  | notFound404
  | uncaughtError
deriving DecidableEq, Repr

/-- The detail PUT handler.  `MovieSerializer` is not among the source
files, so its partial-update behaviour is abstracted: `valid` is whether
`serializer.is_valid()` holds for the request data and `apply` is the
field update `serializer.save()` performs on the resolved row. -/
def detailPutView (valid : Bool) (apply : MovieRec → MovieRec)
    (db : List MovieRec) (t : String) : List MovieRec × DetailPutRes :=
  match objectsGet db t with
  | .found r =>
      if valid then
        (db.map (fun x => if x.id = r.id then apply r else x), .ok200 (apply r))
      else (db, .badRequest400)
  | .doesNotExist => (db, .notFound404)
  | .multipleReturned => (db, .uncaughtError)

/-! ## Argument validation and URL construction
(`scrape_movies.py`, `validate_arguments` lines 51–76, `construct_url`
lines 78–102, `handle` lines 332–348) -/

/-- The scraper's base URL (`scrape_movies.py`, line 18). -/
def BASE_URL : String := "https://www.imdb.com/search/title/"

/-- Python truthiness of the optional float `user_rating` in
`construct_url`: `None` and `0.0` are falsy. -/
def pyTruthyQ : Option ℚ → Bool
  | none => false
  | some r => decide (r ≠ 0)

/-- Python truthiness of an optional int (`num_votes`, `release_year`)
in `construct_url`: `None` and `0` are falsy. -/
def pyTruthyI : Option Int → Bool
  | none => false
  | some n => decide (n ≠ 0)

/-- Rendering of a Python float into an f-string.  The claims never
depend on the digits produced, only on the URL's shape, so the Python
float formatter is abstracted by the rational's `toString`. -/
def pyFloatRepr (q : ℚ) : String := toString q

/-- Rendering of a Python int into an f-string. -/
def pyIntRepr (n : Int) : String := toString n

/-- Whether the `user_rating` range check of `validate_arguments` fails:
`user_rating is not None and not (1.0 <= user_rating <= 10.0)`. -/
def ratingOutOfRange : Option ℚ → Bool
  | none => false
  | some r => !(decide (1 ≤ r ∧ r ≤ 10))

/-- Whether the `release_year` range check of `validate_arguments` fails:
`release_year is not None` and `release_year < 1900 or release_year >
current_year`.  `datetime.now().year` is passed in as `current_year`. -/
def yearOutOfRange (current_year : Int) : Option Int → Bool
  | none => false
  | some y => decide (y < 1900) || decide (y > current_year)

/-- `Command.validate_arguments` (`scrape_movies.py`, lines 51–76): the
three checks in source order, raising `ValueError` (modelled as
`Except.error`) at the first failure and returning `()` otherwise. -/
def validate_arguments (current_year : Int) (genre : String)
    (user_rating : Option ℚ) (release_year : Option Int) :
    Except String Unit :=
  if !(genreValues.contains genre) then
    .error "Invalid genre"
  else if ratingOutOfRange user_rating then
    .error "User rating must be a float between 1.0 and 10.0."
  else if yearOutOfRange current_year release_year then
    .error "Release year out of range"
  else
    .ok ()

/-- `Command.construct_url` (`scrape_movies.py`, lines 78–102).
`datetime.now().strftime("%Y-%m-%d")` is passed in as `current_date`. -/
def construct_url (current_date : String) (genre title_type : String)
    (user_rating : Option ℚ) (num_votes : Option Int)
    (release_year : Option Int) : String :=
  let url := BASE_URL ++ "?title_type=" ++ title_type ++ "&genres=" ++ genre
  let url := if pyTruthyQ user_rating then
      url ++ "&user_rating=" ++ pyFloatRepr (user_rating.getD 0) ++ ",10"
    else url
  let url := if pyTruthyI num_votes then
      url ++ "&num_votes=" ++ pyIntRepr (num_votes.getD 0) ++ ","
    else url
  let url := if pyTruthyI release_year then
      url ++ "&release_date=" ++ pyIntRepr (release_year.getD 0) ++ "-01-01,"
        ++ current_date
    else url
  url

/-- The URL-producing prefix of `Command.handle` (`scrape_movies.py`,
lines 332–348): inside the `try` block, `validate_arguments` runs first
and `construct_url` is reached only when it returned normally; a
`ValueError` skips straight to the logging `except` clause, yielding no
URL.  The subsequent scraping and saving steps are I/O and outside this
definition. -/
def handleUrl (current_year : Int) (current_date : String)
    (genre title_type : String) (user_rating : Option ℚ)
    (num_votes : Option Int) (release_year : Option Int) : Option String :=
  match validate_arguments current_year genre user_rating release_year with
  | .error _ => none
  | .ok _ =>
      some (construct_url current_date genre title_type user_rating num_votes
        release_year)

/-! ## The Playwright fetch loop
(`scrape_movies.py`, `fetch_all_pages_with_playwright`, lines 104–154) -/

/-- The browser environment seen by the fetch loop, indexed by the number
of "50 more" clicks performed so far: the rendered page content, the
locator count of `button.ipc-see-more__button`, its visibility, and
whether the iteration raises (network or Playwright failure, which the
outer `except` turns into `None`). -/
structure PageEnv where
  content : Nat → String
  buttonCount : Nat → Nat
  buttonVisible : Nat → Bool
  failAt : Nat → Bool

/-- One pass of the `for page_num in range(page_count)` loop, with `fuel`
the remaining range, `n` the clicks performed so far and `acc` the
accumulated `all_page_content`.  Returns the function result (`none` when
an exception aborted the whole routine) together with the number of loop
iterations entered. -/
def fetchGo (env : PageEnv) : Nat → Nat → String → Option String × Nat
  | 0, _, acc => (some acc, 0)
  | fuel + 1, n, acc =>
      if env.failAt n then (none, 1)
      else
        let acc := acc ++ env.content n
        if env.buttonCount n > 0 && env.buttonVisible n then
          let r := fetchGo env fuel (n + 1) acc
          (r.1, r.2 + 1)
        else
          (some acc, 1)

/-- `Command.fetch_all_pages_with_playwright` (`scrape_movies.py`,
lines 104–154), paired with the number of loop iterations performed. -/
def fetch_all_pages_with_playwright (env : PageEnv) (page_count : Nat) :
    Option String × Nat :=
  fetchGo env page_count 0 ""

/-! ## The field extractor (`scrape_movies.py`, `scrape_page`,
lines 156–242) -/

/-- The pieces of one `li.ipc-metadata-list-summary-item` container that
`scrape_page` inspects: the `h3.ipc-title__text` text, the `alt`
attribute of `img.ipc-image` (absent when there is no such image or no
`alt`), the texts of the metadata spans when the metadata div exists, and
the rating and plot texts. -/
structure Container where
  titleTag : Option String
  imgAlt : Option String
  metadataItems : Option (List String)
  ratingTag : Option String
  plotTag : Option String
deriving DecidableEq, Repr

/-- The movie dict built by `scrape_page` for one container.  All values
come from the page and may be `None`, except `cast`, which — when the
dict is built at all — always holds a string (possibly carried over from
an earlier container). -/
structure ScrapedMovie where
  title : Option String
  year : Option String
  duration : Option String
  category : Option String
  rating : Option String
  cast : String
  plot : Option String
deriving DecidableEq, Repr

/-- `alt_text.split(" in ")[0]`: the first chunk of the alt text;
`str.split` always returns at least one element, so index 0 is safe. -/
def castFromAlt (alt : String) : String :=
  (alt.splitOn " in ").headD ""

/-- The title extraction of `scrape_page` (lines 184–186):
strip the tag text, treat a missing tag or empty text as `None`, and
otherwise take element 1 of `title.split(". ")`, raising `IndexError`
(modelled as `Except.error`) when the separator does not occur. -/
def extractTitle (titleTag : Option String) : Except Unit (Option String) :=
  match titleTag with
  | none => .ok none
  | some raw =>
      let t := raw.trim
      if t = "" then .ok none
      else
        match (t.splitOn ". ").get? 1 with
        | some p => .ok (some p)
        | none => .error ()

/-- The year/duration/category extraction (lines 193–205): positional
reads from the metadata spans, `None` when absent. -/
def extractMetadata (items : Option (List String)) :
    Option String × Option String × Option String :=
  match items with
  | none => (none, none, none)
  | some xs => ((xs.get? 0).map String.trim, (xs.get? 1).map String.trim,
      (xs.get? 2).map String.trim)

/-- The body of `scrape_page`'s per-container `try` block, threaded with
the state of the Python local variable `cast` (unassigned = `none`).
The title split runs first, so an `IndexError` there skips the `img`
branch and leaves `cast` untouched; `cast` is reassigned only inside the
`img` branch; building the dict with `cast` still unassigned raises
`NameError`.  The returned pair is the new `cast` state and either the
movie dict or the exception the `except` clause logs. -/
def processContainer (castState : Option String) (c : Container) :
    Option String × Except Unit ScrapedMovie :=
  match extractTitle c.titleTag with
  | .error _ => (castState, .error ())
  | .ok title =>
      let castState' :=
        match c.imgAlt with
        | some alt => some (castFromAlt alt)
        | none => castState
      let md := extractMetadata c.metadataItems
      let rating := c.ratingTag.map String.trim
      let plot := c.plotTag.map String.trim
      match castState' with
      | none => (none, .error ())
      | some cast =>
          (some cast,
            .ok { title := title, year := md.1, duration := md.2.1,
                  category := md.2.2, rating := rating, cast := cast,
                  plot := plot })

/-- The container loop of `scrape_page` (lines 181–236): containers whose
processing raises are logged and dropped; the `cast` variable persists
across iterations. -/
def scrapeContainers : Option String → List Container → List ScrapedMovie
  | _, [] => []
  | cs, c :: rest =>
      match processContainer cs c with
      | (cs', .ok m) => m :: scrapeContainers cs' rest
      | (cs', .error _) => scrapeContainers cs' rest

/-- `scrape_page` from the parsed containers onward: the `cast` local
starts unassigned. -/
def scrape_page (containers : List Container) : List ScrapedMovie :=
  scrapeContainers none containers

/-! ## The bulk upsert (`scrape_movies.py`, `save_movies`,
lines 259–330) -/

/-- One input movie dict as consumed by `save_movies`.  The claims range
over dicts with string titles (the title is the upsert key and the
table's non-null unique column); the remaining values are the scraped
optional strings. -/
structure MovieInput where
  title : String
  year : Option String
  rating : Option String
  cast : Option String
  plot : Option String
  duration : Option String
  category : Option String
deriving DecidableEq, Repr

/-- The field update `save_movies` performs on an existing row
(lines 294–300): the six mutable columns are overwritten; `id`, `title`
and `director` are untouched. -/
def applyFields (r : MovieRec) (m : MovieInput) : MovieRec :=
  { r with release_year := m.year, imdb_rating := m.rating, cast := m.cast,
           plot_summary := m.plot, duration := m.duration,
           category := m.category }

/-- The row `Movie(...)` constructed for a new title (lines 304–314);
`id` is the primary key the database will assign. -/
def mkRec (id : Nat) (m : MovieInput) : MovieRec :=
  { id := id, title := m.title, release_year := m.year,
    imdb_rating := m.rating, director := none, cast := m.cast,
    plot_summary := m.plot, duration := m.duration, category := m.category }

/-- Lookup in the `existing_movies_dict` association list. -/
def dictGet : List (String × MovieInput) → String → Option MovieInput
  | [], _ => none
  | (k, v) :: rest, t => if k = t then some v else dictGet rest t

/-- Overwriting assignment in the `existing_movies_dict` association
list (the Python dict entry is mutated in place). -/
def dictSet : List (String × MovieInput) → String → MovieInput →
    List (String × MovieInput)
  | [], k, v => [(k, v)]
  | (k', v') :: rest, k, v =>
      if k' = k then (k, v) :: rest else (k', v') :: dictSet rest k v

/-- One iteration of the `for movie in movies` loop (lines 291–314).
`et` is the set of keys of `existing_movies_dict` (the titles of the
fetched existing rows, fixed before the loop).  A matching title mutates
the dict entry for that title to the current movie's fields (the shared
object ends up holding the last assignment); a fresh title is appended to
`new_movies`. -/
def loopStep (et : List String)
    (acc : List MovieInput × List (String × MovieInput)) (m : MovieInput) :
    List MovieInput × List (String × MovieInput) :=
  if et.contains m.title then (acc.1, dictSet acc.2 m.title m)
  else (acc.1 ++ [m], acc.2)

/-- The whole `for movie in movies` loop: the `new_movies` list and the
final per-title field assignments of the updated dict objects. -/
def loopMovies (et : List String) (movies : List MovieInput) :
    List MovieInput × List (String × MovieInput) :=
  movies.foldl (loopStep et) ([], [])

/-- `Movie.objects.bulk_create(new_movies, ignore_conflicts=True)`
(line 318): rows are inserted in order with fresh primary keys, and a row
whose title collides with one already in the table is silently skipped. -/
def bulkCreateIC (db : List MovieRec) (nid : Nat) :
    List MovieInput → List MovieRec × Nat
  | [] => (db, nid)
  | m :: rest =>
      if db.any (fun r => r.title = m.title) then bulkCreateIC db nid rest
      else bulkCreateIC (db ++ [mkRec nid m]) (nid + 1) rest

/-- `Movie.objects.bulk_update(updates, fields=[...])` (lines 321–326):
each row whose object is in `updates` gets its six mutable columns set to
the object's final field values.  The objects are the dict's values, one
per matched title, so — the table's titles being unique — the update is
keyed here by title. -/
def bulkUpdate (db : List MovieRec) (upds : List (String × MovieInput)) :
    List MovieRec :=
  db.map (fun r =>
    match dictGet upds r.title with
    | some m => applyFields r m
    | none => r)

/-- `Command.save_movies` (lines 259–330) on the success path: the early
return on an empty list, the `title__in` fetch of existing rows, the
classification loop, then `bulk_create` followed by `bulk_update` inside
the transaction.  `nid` is the next primary key the database assigns. -/
def save_movies (db : List MovieRec) (nid : Nat)
    (movies : List MovieInput) : List MovieRec :=
  if movies.isEmpty then db
  else
    let titles := movies.map (fun m => m.title)
    let existing := db.filter (fun r => titles.contains r.title)
    let et := existing.map (fun r => r.title)
    let p := loopMovies et movies
    bulkUpdate (bulkCreateIC db nid p.1).1 p.2

/-- Failure injection for `save_movies`: whether evaluating the
`title__in` queryset, the `bulk_create`, or the `bulk_update` raises a
database exception. -/
structure FailSpec where
  filterFails : Bool
  createFails : Bool
  updateFails : Bool
deriving DecidableEq, Repr

/-- `transaction.atomic()` around a state transformation: on success the
new state is committed; on an exception every write inside the block is
rolled back and the exception is re-raised (here: returned). -/
def atomicRun (s0 : List MovieRec) (comp : Except String (List MovieRec)) :
    List MovieRec × Option String :=
  match comp with
  | .ok s1 => (s1, none)
  | .error e => (s0, some e)

/-- `Command.save_movies` with its exception behaviour: the whole body
sits in a `try` whose `except` only logs, so the function always returns;
the database writes all happen inside `transaction.atomic()`; the
`bulk_update` only runs when `updates` is non-empty (`if updates:`), so
it can only fail then.  Returns the resulting table and whether an error
was logged. -/
def save_movies_run (f : FailSpec) (db : List MovieRec) (nid : Nat)
    (movies : List MovieInput) : List MovieRec × Bool :=
  if movies.isEmpty then (db, false)
  else if f.filterFails then (db, true)
  else
    let titles := movies.map (fun m => m.title)
    let existing := db.filter (fun r => titles.contains r.title)
    let et := existing.map (fun r => r.title)
    let p := loopMovies et movies
    let inner : Except String (List MovieRec) :=
      if f.createFails then .error "bulk_create failed"
      else
        let created := (bulkCreateIC db nid p.1).1
        if f.updateFails && !p.2.isEmpty then .error "bulk_update failed"
        else .ok (bulkUpdate created p.2)
    match atomicRun db inner with
    | (s, none) => (s, false)
    | (s, some _) => (s, true)

/-- The final value a title's entry of `existing_movies_dict` holds after
the loop: the last input movie carrying that title, if any. -/
def lastAssign : List MovieInput → String → Option MovieInput
  | [], _ => none
  | m :: rest, t =>
      match lastAssign rest t with
      | some x => some x
      | none => if m.title = t then some m else none

/-- The titles of the existing rows fetched by the `title__in` filter —
the keys of `existing_movies_dict` in `save_movies`. -/
def etOf (db : List MovieRec) (movies : List MovieInput) : List String :=
  (db.filter (fun r =>
    (movies.map (fun m => m.title)).contains r.title)).map
    (fun r => r.title)

/-! ## Theorems for claims C2 and C3 -/

/-- C3 counterexample: `models.py` declares a `director` field, which is
not among the seven fields the claim enumerates, so the field list is not
"exactly" the claimed one. -/
theorem movie_model_has_director_field :
    "director" ∈ movieModelFields.map Prod.fst ∧
    "director" ∉ ["title", "release_year", "duration", "category",
      "imdb_rating", "cast", "plot_summary"] := by
  decide

/-- C3 (amended): the movie model's fields are exactly title (a unique
key), release year, duration, category, the numeric rating, director,
cast and plot summary; none of them is a relationship, so there are no
foreign keys or derived entities. -/
theorem movie_model_fields_exact :
    movieModelFields.map Prod.fst =
      ["title", "release_year", "duration", "category", "imdb_rating",
       "director", "cast", "plot_summary"] ∧
    ("title", FieldKind.charField 255 true false) ∈ movieModelFields ∧
    (∀ f ∈ movieModelFields, f.2.isRelation = false) := by
  decide

/-- C2 counterexample: a POST to the routed detail URL reaches
`MovieDetailView.post`, a fifth operation beyond the four the claim
allows (list, detail GET, detail PUT, detail DELETE). -/
theorem detail_post_reachable :
    dispatch .POST ["movies", "Inception"] = .detailPost "Inception" ∧
    Operation.detailPost "Inception" ∉
      [Operation.listMovies, Operation.detailGet "Inception",
       Operation.detailPut "Inception",
       Operation.detailDelete "Inception"] := by
  decide

/-- C2 (amended): the routed URLs reach exactly five operations backed by
the movie table — the list GET plus per-title detail GET, POST, PUT and
DELETE — and nothing else beyond the framework's 405/404 responses; each
of the five is reachable. -/
theorem routed_surface_exactly_five_operations :
    (∀ (m : Method) (segs : List String),
        dispatch m segs = .noRoute ∨ dispatch m segs = .methodNotAllowed ∨
        dispatch m segs = .listMovies ∨
        (∃ t, segs = ["movies", t] ∧
          (dispatch m segs = .detailGet t ∨ dispatch m segs = .detailPost t ∨
           dispatch m segs = .detailPut t ∨
           dispatch m segs = .detailDelete t)))
    ∧ dispatch .GET ["movies"] = .listMovies
    ∧ (∀ t : String, t ≠ "" →
        dispatch .GET ["movies", t] = .detailGet t ∧
        dispatch .POST ["movies", t] = .detailPost t ∧
        dispatch .PUT ["movies", t] = .detailPut t ∧
        dispatch .DELETE ["movies", t] = .detailDelete t) := by
  refine ⟨?_, by decide, ?_⟩
  · intro m segs
    match segs with
    | [] => left; rfl
    | [s] =>
        by_cases hs : s = "movies"
        · subst hs
          cases m <;> simp [dispatch, resolve]
        · left; simp [dispatch, resolve, hs]
    | [s, t] =>
        by_cases hs : s = "movies"
        · subst hs
          by_cases ht : t = ""
          · left; simp [dispatch, resolve, ht]
          · cases m with
            | GET => exact Or.inr (Or.inr (Or.inr ⟨t, rfl,
                Or.inl (by simp [dispatch, resolve, ht])⟩))
            | POST => exact Or.inr (Or.inr (Or.inr ⟨t, rfl,
                Or.inr (Or.inl (by simp [dispatch, resolve, ht]))⟩))
            | PUT => exact Or.inr (Or.inr (Or.inr ⟨t, rfl,
                Or.inr (Or.inr (Or.inl (by simp [dispatch, resolve, ht])))⟩))
            | DELETE => exact Or.inr (Or.inr (Or.inr ⟨t, rfl,
                Or.inr (Or.inr (Or.inr (by simp [dispatch, resolve, ht])))⟩))
            | PATCH => exact Or.inr (Or.inl (by simp [dispatch, resolve, ht]))
        · left; simp [dispatch, resolve, hs]
    | s₁ :: s₂ :: s₃ :: rest => left; rfl
  · intro t ht
    refine ⟨?_, ?_, ?_, ?_⟩ <;> simp [dispatch, resolve, ht]

/-- C2 (amended) witness: the five operations at the concrete title
`"Up"`. -/
theorem routed_surface_witness :
    dispatch .POST ["movies", "Up"] = .detailPost "Up" ∧
    dispatch .DELETE ["movies", "Up"] = .detailDelete "Up" :=
  ⟨(routed_surface_exactly_five_operations.2.2 "Up" (by decide)).2.1,
   (routed_surface_exactly_five_operations.2.2 "Up" (by decide)).2.2.2⟩

/-! ## Theorems for claims C5 and C6 -/

/-- The rating check fails exactly on a present rating outside
`[1.0, 10.0]`. -/
theorem ratingOutOfRange_iff (ur : Option ℚ) :
    ratingOutOfRange ur = true ↔ ∃ r, ur = some r ∧ ¬(1 ≤ r ∧ r ≤ 10) := by
  cases ur with
  | none => simp [ratingOutOfRange]
  | some r =>
      unfold ratingOutOfRange
      rw [Bool.not_eq_true', decide_eq_false_iff_not]
      constructor
      · intro h
        exact ⟨r, rfl, h⟩
      · rintro ⟨r', hr', h⟩
        obtain rfl : r' = r := (Option.some.inj hr').symm
        exact h

/-- The year check fails exactly on a present year outside
`[1900, current_year]`. -/
theorem yearOutOfRange_iff (cy : Int) (ry : Option Int) :
    yearOutOfRange cy ry = true ↔ ∃ y, ry = some y ∧ (y < 1900 ∨ y > cy) := by
  cases ry with
  | none => simp [yearOutOfRange]
  | some y =>
      unfold yearOutOfRange
      rw [Bool.or_eq_true, decide_eq_true_eq, decide_eq_true_eq]
      constructor
      · intro h
        exact ⟨y, rfl, h⟩
      · rintro ⟨y', hy', h⟩
        obtain rfl : y' = y := (Option.some.inj hy').symm
        exact h

/-- C5: `validate_arguments` raises `ValueError` exactly when the genre
is not a `Genre` value, or a provided `user_rating` lies outside
`[1.0, 10.0]`, or a provided `release_year` lies outside
`[1900, current_year]`; on every other input it returns normally (it is a
pure check), and `handle` reaches `construct_url` exactly when validation
succeeded, a `ValueError` instead jumping to the logging `except` clause
before any URL is built. -/
theorem validate_arguments_gates_construct_url (cy : Int) (cd : String)
    (g tt : String) (ur : Option ℚ) (nv ry : Option Int) :
    ((∃ e, validate_arguments cy g ur ry = .error e) ↔
      (g ∉ genreValues ∨ (∃ r, ur = some r ∧ ¬(1 ≤ r ∧ r ≤ 10)) ∨
        (∃ y, ry = some y ∧ (y < 1900 ∨ y > cy))))
    ∧ (validate_arguments cy g ur ry = .ok () ↔
        handleUrl cy cd g tt ur nv ry =
          some (construct_url cd g tt ur nv ry))
    ∧ ((∃ e, validate_arguments cy g ur ry = .error e) ↔
        handleUrl cy cd g tt ur nv ry = none) := by
  have hmem : (genreValues.contains g = true) ↔ g ∈ genreValues :=
    ⟨fun h => List.elem_iff.mp h, fun h => List.elem_iff.mpr h⟩
  have hok : validate_arguments cy g ur ry = .ok () ↔
      (genreValues.contains g = true ∧ ratingOutOfRange ur = false ∧
        yearOutOfRange cy ry = false) := by
    unfold validate_arguments
    split_ifs with h1 h2 h3 <;> simp_all
  have herr : (∃ e, validate_arguments cy g ur ry = .error e) ↔
      ¬(validate_arguments cy g ur ry = .ok ()) := by
    cases hv : validate_arguments cy g ur ry with
    | ok u => cases u; simp
    | error e => simp
  have hfirst : (∃ e, validate_arguments cy g ur ry = .error e) ↔
      (g ∉ genreValues ∨ (∃ r, ur = some r ∧ ¬(1 ≤ r ∧ r ≤ 10)) ∨
        (∃ y, ry = some y ∧ (y < 1900 ∨ y > cy))) := by
    rw [herr, hok]
    constructor
    · intro h
      by_cases hg : genreValues.contains g = true
      · by_cases hrb : ratingOutOfRange ur = true
        · exact Or.inr (Or.inl ((ratingOutOfRange_iff ur).mp hrb))
        · have hyb : yearOutOfRange cy ry = true := by
            by_contra hyb
            exact h ⟨hg, Bool.not_eq_true _ ▸ hrb, Bool.not_eq_true _ ▸ hyb⟩
          exact Or.inr (Or.inr ((yearOutOfRange_iff cy ry).mp hyb))
      · exact Or.inl (fun hm => hg (hmem.mpr hm))
    · rintro (hg | hrr | hyy) ⟨hc1, hc2, hc3⟩
      · exact hg (hmem.mp hc1)
      · exact absurd ((ratingOutOfRange_iff ur).mpr hrr) (by simp [hc2])
      · exact absurd ((yearOutOfRange_iff cy ry).mpr hyy) (by simp [hc3])
  refine ⟨hfirst, ?_, ?_⟩
  · cases hv : validate_arguments cy g ur ry with
    | ok u => cases u; simp [handleUrl, hv]
    | error e => simp [handleUrl, hv]
  · cases hv : validate_arguments cy g ur ry with
    | ok u => cases u; simp [handleUrl, hv]
    | error e => simp [handleUrl, hv]

/-- C6: the `title_type` and `genre` arguments are spliced verbatim into
the query string: the constructed URL is the base URL followed by
`?title_type=<title_type>&genres=<genre>` and then the optional
parameters, so it contains the substrings `title_type=<title_type>` and
`genres=<genre>` exactly as given, in that order, with no escaping or
rewriting. -/
theorem construct_url_forwards_verbatim (cd g tt : String)
    (ur : Option ℚ) (nv ry : Option Int) :
    (construct_url cd g tt ur nv ry =
      BASE_URL ++ "?title_type=" ++ tt ++ "&genres=" ++ g ++
        ((if pyTruthyQ ur then
            "&user_rating=" ++ pyFloatRepr (ur.getD 0) ++ ",10" else "") ++
         (if pyTruthyI nv then
            "&num_votes=" ++ pyIntRepr (nv.getD 0) ++ "," else "") ++
         (if pyTruthyI ry then
            "&release_date=" ++ pyIntRepr (ry.getD 0) ++ "-01-01," ++ cd
          else "")))
    ∧ (∃ p s, construct_url cd g tt ur nv ry =
        p ++ ("title_type=" ++ tt) ++ s)
    ∧ (∃ p s, construct_url cd g tt ur nv ry =
        p ++ ("genres=" ++ g) ++ s) := by
  have hmain : construct_url cd g tt ur nv ry =
      BASE_URL ++ "?title_type=" ++ tt ++ "&genres=" ++ g ++
        ((if pyTruthyQ ur then
            "&user_rating=" ++ pyFloatRepr (ur.getD 0) ++ ",10" else "") ++
         (if pyTruthyI nv then
            "&num_votes=" ++ pyIntRepr (nv.getD 0) ++ "," else "") ++
         (if pyTruthyI ry then
            "&release_date=" ++ pyIntRepr (ry.getD 0) ++ "-01-01," ++ cd
          else "")) := by
    unfold construct_url
    split_ifs <;>
      simp only [String.append_assoc, String.append_empty,
        String.empty_append]
  obtain ⟨rest, hrest⟩ : ∃ rest, construct_url cd g tt ur nv ry =
      BASE_URL ++ "?title_type=" ++ tt ++ "&genres=" ++ g ++ rest :=
    ⟨_, hmain⟩
  refine ⟨hmain, ⟨BASE_URL ++ "?", "&genres=" ++ (g ++ rest), ?_⟩,
    ⟨BASE_URL ++ "?title_type=" ++ (tt ++ "&"), rest, ?_⟩⟩
  · rw [hrest]
    rw [show ("?title_type=" : String) = "?" ++ "title_type=" from rfl]
    simp only [String.append_assoc]
  · rw [hrest]
    rw [show ("&genres=" : String) = "&" ++ "genres=" from rfl]
    simp only [String.append_assoc]

/-! ## Theorems for claim C4 -/

/-- The loop never runs more iterations than the remaining `range`. -/
theorem fetchGo_iterations_le (env : PageEnv) :
    ∀ (fuel n : Nat) (acc : String), (fetchGo env fuel n acc).2 ≤ fuel := by
  intro fuel
  induction fuel with
  | zero => intro n acc; simp [fetchGo]
  | succ fuel ih =>
      intro n acc
      unfold fetchGo
      by_cases hf : env.failAt n
      · simp [hf]
      · by_cases hb : (decide (env.buttonCount n > 0) && env.buttonVisible n)
          = true
        · simpa [hf, hb] using Nat.succ_le_succ (ih (n + 1) _)
        · simp [hf, hb]

/-- The loop stops right after the first iteration whose page shows no
clickable "50 more" button. -/
theorem fetchGo_early_exit (env : PageEnv) :
    ∀ (k fuel n : Nat) (acc : String), k < fuel →
      (∀ j, j < k →
        (decide (env.buttonCount (n + j) > 0) && env.buttonVisible (n + j))
          = true) →
      (decide (env.buttonCount (n + k) > 0) && env.buttonVisible (n + k))
        = false →
      (∀ j, j ≤ k → env.failAt (n + j) = false) →
      (fetchGo env fuel n acc).2 = k + 1 := by
  intro k
  induction k with
  | zero =>
      intro fuel n acc hk hb hnb hf
      match fuel, hk with
      | fuel + 1, _ =>
          have hf0 : env.failAt n = false := by simpa using hf 0 (Nat.le_refl 0)
          have hnb0 : (decide (env.buttonCount n > 0) && env.buttonVisible n)
              = false := by simpa using hnb
          simp [fetchGo, hf0, hnb0]
  | succ k ih =>
      intro fuel n acc hk hb hnb hf
      match fuel, hk with
      | fuel + 1, hk =>
          have hf0 : env.failAt n = false := by
            simpa using hf 0 (Nat.zero_le _)
          have hb0 : (decide (env.buttonCount n > 0) && env.buttonVisible n)
              = true := by simpa using hb 0 (Nat.succ_pos k)
          have hrec : (fetchGo env fuel (n + 1) (acc ++ env.content n)).2
              = k + 1 := by
            apply ih
            · omega
            · intro j hj
              have hb' := hb (j + 1) (by omega)
              have e : n + (j + 1) = n + 1 + j := by omega
              rwa [e] at hb'
            · have e : n + (k + 1) = n + 1 + k := by omega
              rwa [e] at hnb
            · intro j hj
              have hf' := hf (j + 1) (by omega)
              have e : n + (j + 1) = n + 1 + j := by omega
              rwa [e] at hf'
          simp [fetchGo, hf0, hb0, hrec]

/-- C4: the "load more" loop of `fetch_all_pages_with_playwright` is
bounded — it never performs more than `page_count` iterations, and it
exits right after the first iteration at which no visible "50 more"
button is present (iteration `k`, counted from 0, so `k + 1 ≤ page_count`
iterations happen).  The embedding recurses structurally on `page_count`,
so the routine terminates on every input. -/
theorem fetch_loop_is_bounded (env : PageEnv) (page_count k : Nat)
    (hk : k < page_count)
    (hb : ∀ j, j < k → 0 < env.buttonCount j ∧ env.buttonVisible j = true)
    (hnb : ¬(0 < env.buttonCount k ∧ env.buttonVisible k = true))
    (hf : ∀ j, j ≤ k → env.failAt j = false) :
    (fetch_all_pages_with_playwright env page_count).2 = k + 1
    ∧ ∀ pc : Nat, (fetch_all_pages_with_playwright env pc).2 ≤ pc := by
  constructor
  · apply fetchGo_early_exit env k page_count 0 "" hk
    · intro j hj
      have := hb j hj
      simp [Nat.zero_add, this.1, this.2]
    · have e : (0 : Nat) + k = k := Nat.zero_add k
      rw [e]
      rw [Bool.and_eq_false_iff]
      by_cases hc : 0 < env.buttonCount k
      · right
        rcases Bool.eq_false_or_eq_true (env.buttonVisible k) with h | h
        · exact absurd ⟨hc, h⟩ hnb
        · exact h
      · left
        simp [hc]
    · intro j hj
      simpa using hf j hj
  · intro pc
    exact fetchGo_iterations_le env pc 0 ""

/-- A concrete browser environment: the button is present and visible
only before the first click, and nothing fails. -/
def fetchEnvW : PageEnv :=
  { content := fun _ => "<html>page</html>"
    buttonCount := fun n => if n = 0 then 1 else 0
    buttonVisible := fun n => decide (n = 0)
    failAt := fun _ => false }

/-- C4 witness: with `page_count = 5` and the button disappearing after
one click, the loop runs exactly 2 of the 5 allowed iterations. -/
theorem fetch_loop_witness :
    (fetch_all_pages_with_playwright fetchEnvW 5).2 = 2 :=
  (fetch_loop_is_bounded fetchEnvW 5 1 (by decide) (by decide) (by decide)
    (by decide)).1

/-! ## Theorems for claims C7 and C8 -/

/-- Inversion for `objectsGet`: a `found` result means exactly one row
matched. -/
theorem objectsGet_found_iff (db : List MovieRec) (t : String)
    (r : MovieRec) :
    objectsGet db t = .found r ↔ iexactMatches db t = [r] := by
  unfold objectsGet
  match hm : iexactMatches db t with
  | [] => simp
  | [x] => simp
  | x :: y :: rest => simp

/-- C7: deletion is a hard delete — when DELETE answers 204 for a title,
the matched row is gone, so the subsequent detail GET for the same title
answers 404 "Movie not found"; and DELETE for a title with no matching
row answers 404 and leaves the table unchanged. -/
theorem delete_is_hard_delete (db : List MovieRec) (t : String) :
    (∀ db', detailDeleteView db t = (db', .noContent204) →
        detailGetView db' t = .notFound404)
    ∧ (objectsGet db t = .doesNotExist →
        detailDeleteView db t = (db, .notFound404)) := by
  constructor
  · intro db' hdel
    cases hg : objectsGet db t with
    | found r =>
        have hm : iexactMatches db t = [r] := (objectsGet_found_iff db t r).mp hg
        have hdb' : db' = db.filter (fun x => x.id ≠ r.id) := by
          rw [detailDeleteView, hg] at hdel
          exact (Prod.mk.injEq _ _ _ _ ▸ hdel).1.symm
        have hempty : iexactMatches db' t = [] := by
          rw [hdb', iexactMatches, List.filter_eq_nil_iff]
          intro a ha
          have ha' := List.mem_filter.mp ha
          intro hmatch
          have hmem : a ∈ iexactMatches db t := by
            rw [iexactMatches, List.mem_filter]
            exact ⟨ha'.1, hmatch⟩
          rw [hm] at hmem
          have : a = r := by simpa using hmem
          subst this
          have : a.id ≠ a.id := by simpa using ha'.2
          exact this rfl
        rw [detailGetView, objectsGet, hempty]
    | doesNotExist =>
        rw [detailDeleteView, hg] at hdel
        exact absurd (Prod.mk.injEq _ _ _ _ ▸ hdel).2 (by simp)
    | multipleReturned =>
        rw [detailDeleteView, hg] at hdel
        exact absurd (Prod.mk.injEq _ _ _ _ ▸ hdel).2 (by simp)
  · intro hg
    rw [detailDeleteView, hg]

/-- A one-row table used by the C7 witness. -/
def dbDelW : List MovieRec :=
  [{ id := 7, title := "Matrix", release_year := some "1999",
     imdb_rating := none, director := none, cast := none,
     plot_summary := none, duration := none, category := none }]

/-- C7 witness: deleting `"matrix"` from the one-row table empties it,
and the follow-up GET on the emptied table is a 404. -/
theorem delete_witness :
    detailDeleteView dbDelW "matrix" = ([], .noContent204) ∧
    detailGetView [] "matrix" = .notFound404 :=
  ⟨by decide, (delete_is_hard_delete dbDelW "matrix").1 [] (by decide)⟩

/-- A table holding two titles that differ only in letter case, used to
refute C8 as stated. -/
def dbCaseClash : List MovieRec :=
  [{ id := 0, title := "Alien", release_year := none, imdb_rating := none,
     director := none, cast := none, plot_summary := none, duration := none,
     category := none },
   { id := 1, title := "ALIEN", release_year := none, imdb_rating := none,
     director := none, cast := none, plot_summary := none, duration := none,
     category := none }]

/-- C8 counterexample: `"alien"` differs from the stored title `"Alien"`
only in case, yet the detail GET neither resolves to that record nor
returns 404 — `title__iexact` matches both stored rows, so
`Movie.objects.get` raises `MultipleObjectsReturned`, which no handler
catches. -/
theorem iexact_lookup_counterexample :
    dbCaseClash.map (fun r => r.title) = ["Alien", "ALIEN"] ∧
    lowerStr "alien" = lowerStr "Alien" ∧
    objectsGet dbCaseClash "alien" = .multipleReturned ∧
    detailGetView dbCaseClash "alien" ≠ .notFound404 ∧
    (∀ r ∈ dbCaseClash, detailGetView dbCaseClash "alien" ≠ .ok200 r) := by
  decide

/-- C8 (amended): per-title lookup is case-insensitive whenever exactly
one stored row matches the requested title case-insensitively (in
particular whenever stored titles are pairwise case-insensitively
distinct): GET, PUT and DELETE all resolve that row rather than
returning 404; but when several stored titles differ only in case, the
shared `title__iexact` lookup raises `MultipleObjectsReturned` instead
of resolving. -/
theorem iexact_unique_lookup_resolves (db : List MovieRec) (r : MovieRec)
    (t : String) (h : iexactMatches db t = [r]) :
    objectsGet db t = .found r ∧
    detailGetView db t = .ok200 r ∧
    (∀ (valid : Bool) (ap : MovieRec → MovieRec),
        (detailPutView valid ap db t).2 ≠ .notFound404 ∧
        (valid = true → (detailPutView valid ap db t).2 = .ok200 (ap r))) ∧
    detailDeleteView db t =
      (db.filter (fun x => x.id ≠ r.id), .noContent204) := by
  have hg : objectsGet db t = .found r := (objectsGet_found_iff db t r).mpr h
  refine ⟨hg, ?_, ?_, ?_⟩
  · rw [detailGetView, hg]
  · intro valid ap
    constructor
    · rw [detailPutView, hg]
      by_cases hv : valid = true
      · simp [hv]
      · simp [Bool.not_eq_true _ ▸ hv]
    · intro hv
      rw [detailPutView, hg, hv]
      simp
  · rw [detailDeleteView, hg]

/-- The single row of the C8 witness table. -/
def heatRec : MovieRec :=
  { id := 3, title := "Heat", release_year := none, imdb_rating := none,
    director := none, cast := none, plot_summary := none, duration := none,
    category := none }

/-- A one-row table used by the C8 witness. -/
def dbCaseW : List MovieRec := [heatRec]

/-- C8 (amended) witness: `"hEAT"` differs from the stored `"Heat"` only
in case and resolves to it on GET. -/
theorem iexact_unique_lookup_witness :
    detailGetView dbCaseW "hEAT" = .ok200 heatRec :=
  (iexact_unique_lookup_resolves dbCaseW heatRec "hEAT" (by decide)).2.1

/-! ## Theorems for claim C9 -/

/-- C9: in `scrape_page`, `cast` is assigned only inside the
image-tag branch.  For a container with no `img` tag carrying an `alt`
attribute, the `cast` variable is left exactly as the previous containers
left it, so a movie dict built for such a container carries the previous
container's cast value; if no earlier container assigned `cast`, building
the dict raises (`NameError`) and the container is dropped with a logged
error.  Conversely a container with an `alt` attribute whose title step
does not raise re-assigns `cast` from that `alt` text. -/
theorem cast_only_assigned_in_img_branch (cs : Option String)
    (c : Container) :
    (c.imgAlt = none →
        (processContainer cs c).1 = cs ∧
        (cs = none → (processContainer cs c).2 = .error ()) ∧
        (∀ v m, cs = some v → (processContainer cs c).2 = .ok m →
          m.cast = v))
    ∧ (∀ a, c.imgAlt = some a →
        (∃ e, extractTitle c.titleTag = .error e) ∨
        (processContainer cs c).1 = some (castFromAlt a)) := by
  constructor
  · intro hno
    cases ht : extractTitle c.titleTag with
    | error e =>
        refine ⟨?_, ?_, ?_⟩
        · simp [processContainer, ht]
        · intro _; simp [processContainer, ht]
        · intro v m hv hm
          rw [processContainer] at hm
          simp [ht] at hm
    | ok title =>
        cases cs with
        | none =>
            refine ⟨?_, ?_, ?_⟩
            · simp [processContainer, ht, hno]
            · intro _; simp [processContainer, ht, hno]
            · intro v m hv hm
              exact absurd hv (by simp)
        | some v0 =>
            refine ⟨?_, ?_, ?_⟩
            · simp [processContainer, ht, hno]
            · intro hc; exact absurd hc (by simp)
            · intro v m hv hm
              obtain rfl : v0 = v := Option.some.inj hv
              rw [processContainer] at hm
              simp [ht, hno] at hm
              rw [← hm]
  · intro a ha
    cases ht : extractTitle c.titleTag with
    | error e => exact Or.inl ⟨e, rfl⟩
    | ok title => right; simp [processContainer, ht, ha]

/-- The C9 witness containers: the first has an image with an `alt`
attribute, the second (same page, later in the list) has none. -/
def containerNoImg : Container :=
  { titleTag := some "2. Heat", imgAlt := none,
    metadataItems := some ["1995", "2h 50m", "R"],
    ratingTag := some "8.3", plotTag := some "A heist goes wrong." }

/-- C9 witness: with `cast` holding `"Al Pacino"` from an earlier
container, processing a container with no image leaves the state
unchanged, and the movie dict it produces carries `"Al Pacino"` as its
cast. -/
theorem cast_carry_over_witness :
    (processContainer (some "Al Pacino") containerNoImg).1 =
      some "Al Pacino" ∧
    (∀ m, (processContainer (some "Al Pacino") containerNoImg).2 = .ok m →
      m.cast = "Al Pacino") ∧
    (processContainer none containerNoImg).2 = .error () :=
  ⟨((cast_only_assigned_in_img_branch (some "Al Pacino")
      containerNoImg).1 (by decide)).1,
   fun m hm => ((cast_only_assigned_in_img_branch (some "Al Pacino")
      containerNoImg).1 (by decide)).2.2 "Al Pacino" m rfl hm,
   ((cast_only_assigned_in_img_branch none containerNoImg).1
      (by decide)).2.1 rfl⟩

/-! ## Theorems for claim C10 -/

/-- C10: `save_movies` is atomic and non-throwing.  Its body runs inside
a `try` whose `except` only logs — the embedding's return type is a plain
pair, never a propagated exception — and the bulk insert and bulk update
sit in one `transaction.atomic()` block, so whatever combination of
database steps fails: if no error is logged the table holds the full
result of the upsert, and if an error is logged the table is exactly as
before (all-or-nothing). -/
theorem save_movies_atomic_nonthrowing (f : FailSpec) (db : List MovieRec)
    (nid : Nat) (movies : List MovieInput) :
    ((save_movies_run f db nid movies).2 = false →
        (save_movies_run f db nid movies).1 = save_movies db nid movies)
    ∧ ((save_movies_run f db nid movies).2 = true →
        (save_movies_run f db nid movies).1 = db)
    ∧ save_movies_run ⟨false, false, false⟩ db nid movies =
        (save_movies db nid movies, false) := by
  by_cases he : movies.isEmpty
  · refine ⟨?_, ?_, ?_⟩ <;>
      simp [save_movies_run, save_movies, he]
  · by_cases h1 : f.filterFails
    · refine ⟨?_, ?_, ?_⟩ <;>
        simp [save_movies_run, save_movies, atomicRun, he, h1]
    · by_cases h2 : f.createFails
      · refine ⟨?_, ?_, ?_⟩ <;>
          simp [save_movies_run, save_movies, atomicRun, he, h1, h2]
      · by_cases h3 : f.updateFails
        · refine ⟨?_, ?_, ?_⟩
          · simp [save_movies_run, save_movies, atomicRun, he, h1, h2, h3]
            by_cases hU : (loopMovies (List.map (fun r => r.title)
                (List.filter (fun r => decide (∃ a ∈ movies,
                  a.title = r.title)) db)) movies).2 = [] <;>
              simp [hU]
          · simp [save_movies_run, save_movies, atomicRun, he, h1, h2, h3]
            by_cases hU : (loopMovies (List.map (fun r => r.title)
                (List.filter (fun r => decide (∃ a ∈ movies,
                  a.title = r.title)) db)) movies).2 = [] <;>
              simp [hU]
          · simp [save_movies_run, save_movies, atomicRun, he, h1, h2]
        · refine ⟨?_, ?_, ?_⟩ <;>
            simp [save_movies_run, save_movies, atomicRun, he, h1, h2, h3]

/-- A failure specification where `bulk_update` raises, and a two-dict
input, used by the C10 witness. -/
def failUpdW : FailSpec := ⟨false, false, true⟩

/-- The C10 witness input: one movie dict whose title matches the
witness table's stored row, so the update path is exercised. -/
def moviesW : List MovieInput :=
  [{ title := "Matrix", year := some "1999", rating := some "8.7",
     cast := some "Keanu Reeves",
     plot := some "A hacker wakes up.", duration := some "2h 16m",
     category := some "R" }]

/-- C10 witness: when `bulk_update` raises against a table whose one row
matches the input title, an error is logged and the table is left
exactly as it was (the transaction rolled back); with no failure the
upsert's full result is committed. -/
theorem save_movies_atomic_witness :
    (save_movies_run failUpdW dbDelW 8 moviesW).2 = true ∧
    (save_movies_run failUpdW dbDelW 8 moviesW).1 = dbDelW :=
  ⟨by decide,
   (save_movies_atomic_nonthrowing failUpdW dbDelW 8 moviesW).2.1
     (by decide)⟩

/-! ## Theorems for claim C1 -/

/-- Setting a key makes it present with the new value. -/
theorem dictGet_dictSet_self (d : List (String × MovieInput)) (k : String)
    (v : MovieInput) : dictGet (dictSet d k v) k = some v := by
  induction d with
  | nil => simp [dictSet, dictGet]
  | cons p rest ih =>
      by_cases h : p.1 = k
      · simp [dictSet, dictGet, h]
      · simp [dictSet, dictGet, h, ih]

/-- Setting a key leaves other keys alone. -/
theorem dictGet_dictSet_ne (d : List (String × MovieInput)) (k t : String)
    (v : MovieInput) (h : k ≠ t) :
    dictGet (dictSet d k v) t = dictGet d t := by
  induction d with
  | nil => simp [dictSet, dictGet, h]
  | cons p rest ih =>
      obtain ⟨a, b⟩ := p
      by_cases hak : a = k
      · subst hak
        simp [dictSet, dictGet, h]
      · by_cases hat : a = t
        · simp [dictSet, dictGet, hak, hat, Ne.symm h]
        · simp [dictSet, dictGet, hak, hat, ih]

/-- A title with no occurrence in the input has no final assignment. -/
theorem lastAssign_eq_none (ms : List MovieInput) (t : String)
    (h : t ∉ ms.map (fun m => m.title)) : lastAssign ms t = none := by
  induction ms with
  | nil => rfl
  | cons m rest ih =>
      simp only [List.map_cons, List.mem_cons] at h
      push_neg at h
      rw [lastAssign, ih h.2]
      simp [Ne.symm h.1]

/-- A title occurring in the input has a final assignment, carrying that
title. -/
theorem lastAssign_is_some (ms : List MovieInput) (t : String)
    (h : t ∈ ms.map (fun m => m.title)) :
    ∃ m, lastAssign ms t = some m ∧ m.title = t := by
  induction ms with
  | nil => simp at h
  | cons m rest ih =>
      by_cases hr : t ∈ rest.map (fun mv => mv.title)
      · obtain ⟨x, hx, hxt⟩ := ih hr
        exact ⟨x, by rw [lastAssign, hx], hxt⟩
      · have hm : m.title = t := by
          simp only [List.map_cons, List.mem_cons] at h
          rcases h with h | h
          · exact h.symm
          · exact absurd h hr
        refine ⟨m, ?_, hm⟩
        rw [lastAssign, lastAssign_eq_none rest t hr]
        simp [hm]

/-- Skipping a non-matching head leaves the final assignment unchanged. -/
theorem lastAssign_cons_ne (m : MovieInput) (rest : List MovieInput)
    (t : String) (h : m.title ≠ t) :
    lastAssign (m :: rest) t = lastAssign rest t := by
  rw [lastAssign]
  cases hra : lastAssign rest t with
  | none => simp [h]
  | some x => rfl

/-- The `new_movies` list collects, in order, exactly the input movies
whose title is not an existing title. -/
theorem loopMovies_news (et : List String) (ms : List MovieInput) :
    ∀ acc, ((ms.foldl (loopStep et) acc).1 =
      acc.1 ++ ms.filter (fun m => !(et.contains m.title))) := by
  induction ms with
  | nil => intro acc; simp
  | cons m rest ih =>
      intro acc
      rw [List.foldl_cons, ih]
      by_cases h : m.title ∈ et
      · simp [loopStep, h]
      · simp [loopStep, h]

/-- The dict after the loop: a title present among the existing titles
holds its last assignment from the input (falling back to the incoming
dict when it never occurs); any other title is untouched. -/
theorem loopMovies_dict (et : List String) (ms : List MovieInput) :
    ∀ acc t, dictGet (ms.foldl (loopStep et) acc).2 t =
      (match (if et.contains t then lastAssign ms t else none) with
        | some m => some m
        | none => dictGet acc.2 t) := by
  induction ms with
  | nil =>
      intro acc t
      by_cases h : et.contains t <;> simp [lastAssign, h]
  | cons m rest ih =>
      intro acc t
      rw [List.foldl_cons, ih]
      by_cases hm : et.contains m.title = true
      · have hm' : m.title ∈ et := List.elem_iff.mp hm
        have hstep : loopStep et acc m = (acc.1, dictSet acc.2 m.title m) := by
          simp [loopStep, hm']
        rw [hstep]
        by_cases hmt : m.title = t
        · subst hmt
          rw [if_pos hm, if_pos hm, dictGet_dictSet_self, lastAssign]
          cases hra : lastAssign rest m.title <;> simp
        · rw [dictGet_dictSet_ne acc.2 m.title t m hmt,
            lastAssign_cons_ne m rest t hmt]
      · have hm' : m.title ∉ et := fun hmem => hm (List.elem_iff.mpr hmem)
        have hstep : loopStep et acc m = (acc.1 ++ [m], acc.2) := by
          simp [loopStep, hm']
        rw [hstep]
        by_cases ht : et.contains t = true
        · have hmt : m.title ≠ t := by
            intro he
            rw [he] at hm
            exact hm ht
          rw [if_pos ht, if_pos ht, lastAssign_cons_ne m rest t hmt]
        · rw [if_neg ht, if_neg ht]

/-- The dict after the whole loop, starting empty. -/
theorem dictGet_loopMovies (et : List String) (ms : List MovieInput)
    (t : String) :
    dictGet (loopMovies et ms).2 t =
      (if et.contains t then lastAssign ms t else none) := by
  rw [loopMovies, loopMovies_dict]
  cases h : (if et.contains t then lastAssign ms t else none) with
  | none => simp [dictGet]
  | some x => rfl

/-- `bulk_create` never removes or changes a row already in the table. -/
theorem bulkCreateIC_mem (news : List MovieInput) :
    ∀ (db : List MovieRec) (nid : Nat) (r : MovieRec), r ∈ db →
      r ∈ (bulkCreateIC db nid news).1 := by
  induction news with
  | nil => intro db nid r hr; simpa [bulkCreateIC] using hr
  | cons m rest ih =>
      intro db nid r hr
      rw [bulkCreateIC]
      by_cases h : db.any (fun x => x.title = m.title)
      · simp only [h, if_true]
        exact ih db nid r hr
      · simp only [h, if_false]
        exact ih (db ++ [mkRec nid m]) (nid + 1) r (List.mem_append_left _ hr)

/-- After `bulk_create`, every title that either occurs among the new
movies or was already in the table is present in the table. -/
theorem bulkCreateIC_covers (news : List MovieInput) :
    ∀ (db : List MovieRec) (nid : Nat) (t : String),
      ((∃ m ∈ news, m.title = t) ∨ (∃ r ∈ db, r.title = t)) →
      ∃ r ∈ (bulkCreateIC db nid news).1, r.title = t := by
  induction news with
  | nil =>
      intro db nid t h
      rcases h with ⟨m, hm, _⟩ | ⟨r, hr, hrt⟩
      · simp at hm
      · exact ⟨r, by simpa [bulkCreateIC] using hr, hrt⟩
  | cons m rest ih =>
      intro db nid t h
      rw [bulkCreateIC]
      by_cases hc : db.any (fun x => x.title = m.title)
      · simp only [hc, if_true]
        rcases h with ⟨m', hm', hm't⟩ | hdb
        · rcases List.mem_cons.mp hm' with rfl | hm'rest
          · obtain ⟨x, hx, hxt⟩ := List.any_eq_true.mp hc
            have hxt' : x.title = m'.title := by simpa using hxt
            exact ih db nid t (Or.inr ⟨x, hx, hxt'.trans hm't⟩)
          · exact ih db nid t (Or.inl ⟨m', hm'rest, hm't⟩)
        · exact ih db nid t (Or.inr hdb)
      · simp only [hc, if_false]
        rcases h with ⟨m', hm', hm't⟩ | ⟨r, hr, hrt⟩
        · rcases List.mem_cons.mp hm' with rfl | hm'rest
          · refine ih (db ++ [mkRec nid m']) (nid + 1) t (Or.inr ?_)
            exact ⟨mkRec nid m', List.mem_append_right _ (by simp), hm't⟩
          · exact ih _ _ t (Or.inl ⟨m', hm'rest, hm't⟩)
        · exact ih _ _ t (Or.inr ⟨r, List.mem_append_left _ hr, hrt⟩)

/-- A row whose title has no dict entry passes through `bulk_update`
unchanged. -/
theorem bulkUpdate_mem_of_none (db : List MovieRec)
    (upds : List (String × MovieInput)) (r : MovieRec) (hr : r ∈ db)
    (h : dictGet upds r.title = none) : r ∈ bulkUpdate db upds := by
  rw [bulkUpdate]
  have heq : (fun x : MovieRec =>
      match dictGet upds x.title with
      | some m => applyFields x m
      | none => x) r = r := by
    show (match dictGet upds r.title with
      | some m => applyFields r m
      | none => r) = r
    rw [h]
  exact heq ▸ List.mem_map_of_mem _ hr

/-- A row whose title has a dict entry comes out of `bulk_update` with
the entry's fields applied. -/
theorem bulkUpdate_mem_of_some (db : List MovieRec)
    (upds : List (String × MovieInput)) (r : MovieRec) (m : MovieInput)
    (hr : r ∈ db) (h : dictGet upds r.title = some m) :
    applyFields r m ∈ bulkUpdate db upds := by
  rw [bulkUpdate]
  have heq : (fun x : MovieRec =>
      match dictGet upds x.title with
      | some mv => applyFields x mv
      | none => x) r = applyFields r m := by
    show (match dictGet upds r.title with
      | some mv => applyFields r mv
      | none => r) = applyFields r m
    rw [h]
  exact heq ▸ List.mem_map_of_mem _ hr

/-- On a non-empty input, `save_movies` is the bulk create followed by
the bulk update computed from the classification loop. -/
theorem save_movies_eq (db : List MovieRec) (nid : Nat)
    (movies : List MovieInput) (hne : ¬movies.isEmpty = true) :
    save_movies db nid movies =
      bulkUpdate (bulkCreateIC db nid
          (loopMovies (etOf db movies) movies).1).1
        (loopMovies (etOf db movies) movies).2 := by
  rw [save_movies, if_neg hne]
  exact rfl

/-- A row whose title occurs in the input has its title among the
existing-dict keys. -/
theorem mem_etOf (db : List MovieRec) (movies : List MovieInput)
    (r : MovieRec) (hr : r ∈ db)
    (ht : r.title ∈ movies.map (fun m => m.title)) :
    r.title ∈ etOf db movies := by
  refine List.mem_map_of_mem _ (List.mem_filter.mpr ⟨hr, ?_⟩)
  exact List.elem_iff.mpr ht

/-- Every existing-dict key is the title of a table row and occurs in the
input. -/
theorem etOf_spec (db : List MovieRec) (movies : List MovieInput)
    (t : String) (htin : t ∈ etOf db movies) :
    ∃ r ∈ db, r.title = t ∧ t ∈ movies.map (fun m => m.title) := by
  obtain ⟨r, hrf, hrt⟩ := List.mem_map.mp htin
  have hf := List.mem_filter.mp hrf
  exact ⟨r, hf.1, hrt, hrt ▸ List.elem_iff.mp hf.2⟩

/-- C1: `save_movies` is an upsert keyed by title.  Over any table whose
titles are distinct (the unique constraint on `title`): a table row whose
title is absent from the input is left in the table untouched; a table
row whose title occurs in the input is updated in place — the updated row
is `applyFields` of the old row and the last input dict carrying that
title, so only the six mutable fields change while the primary key and
title are preserved; and every input movie whose title is not in the
table gets a row with its title inserted. -/
theorem save_movies_upserts_by_title (db : List MovieRec) (nid : Nat)
    (movies : List MovieInput)
    (hnodup : (db.map (fun r => r.title)).Nodup) :
    (∀ r ∈ db, r.title ∉ movies.map (fun m => m.title) →
        r ∈ save_movies db nid movies)
    ∧ (∀ r ∈ db, r.title ∈ movies.map (fun m => m.title) →
        ∃ m, lastAssign movies r.title = some m ∧ m.title = r.title ∧
          applyFields r m ∈ save_movies db nid movies ∧
          (applyFields r m).id = r.id ∧
          (applyFields r m).title = r.title ∧
          (applyFields r m).release_year = m.year ∧
          (applyFields r m).imdb_rating = m.rating ∧
          (applyFields r m).cast = m.cast ∧
          (applyFields r m).plot_summary = m.plot ∧
          (applyFields r m).duration = m.duration ∧
          (applyFields r m).category = m.category)
    ∧ (∀ m ∈ movies, m.title ∉ db.map (fun r => r.title) →
        ∃ r ∈ save_movies db nid movies, r.title = m.title) := by
  by_cases hemp : movies.isEmpty = true
  · have hnil : movies = [] := by
      cases movies with
      | nil => rfl
      | cons a l => simp [List.isEmpty] at hemp
    subst hnil
    refine ⟨?_, ?_, ?_⟩
    · intro r hr _
      simpa [save_movies] using hr
    · intro r hr hmem
      simp at hmem
    · intro m hm _
      simp at hm
  · have hsave := save_movies_eq db nid movies hemp
    have hdict : ∀ t, dictGet (loopMovies (etOf db movies) movies).2 t =
        (if (etOf db movies).contains t then lastAssign movies t
         else none) :=
      fun t => dictGet_loopMovies (etOf db movies) movies t
    refine ⟨?_, ?_, ?_⟩
    · -- titles absent from the input: the row passes through untouched
      intro r hr hnt
      rw [hsave]
      have hnone : dictGet (loopMovies (etOf db movies) movies).2 r.title
          = none := by
        rw [hdict]
        by_cases hc : (etOf db movies).contains r.title = true
        · rw [if_pos hc, lastAssign_eq_none movies r.title hnt]
        · rw [if_neg hc]
      exact bulkUpdate_mem_of_none _ _ r
        (bulkCreateIC_mem _ db nid r hr) hnone
    · -- titles in the input: the row is updated in place
      intro r hr hmem
      obtain ⟨m, hlm, hmt⟩ := lastAssign_is_some movies r.title hmem
      have hcontains : (etOf db movies).contains r.title = true :=
        List.elem_iff.mpr (mem_etOf db movies r hr hmem)
      have hsome : dictGet (loopMovies (etOf db movies) movies).2 r.title
          = some m := by
        rw [hdict, if_pos hcontains, hlm]
      refine ⟨m, hlm, hmt, ?_, rfl, rfl, rfl, rfl, rfl, rfl, rfl, rfl⟩
      rw [hsave]
      exact bulkUpdate_mem_of_some _ _ r m
        (bulkCreateIC_mem _ db nid r hr) hsome
    · -- new titles: a row with that title is inserted
      intro m hm hnd
      have hnet : m.title ∉ etOf db movies := by
        intro hin
        obtain ⟨r, hrdb, hrt, _⟩ := etOf_spec db movies m.title hin
        exact hnd (hrt ▸ List.mem_map_of_mem _ hrdb)
      have hmp1 : m ∈ (loopMovies (etOf db movies) movies).1 := by
        have hnews := loopMovies_news (etOf db movies) movies ([], [])
        rw [loopMovies, hnews]
        simp only [List.nil_append]
        exact List.mem_filter.mpr ⟨hm, by simp [hnet]⟩
      obtain ⟨r, hrin, hrt⟩ := bulkCreateIC_covers
        (loopMovies (etOf db movies) movies).1 db nid m.title
        (Or.inl ⟨m, hmp1, rfl⟩)
      refine ⟨r, ?_, hrt⟩
      rw [hsave]
      have hnone : dictGet (loopMovies (etOf db movies) movies).2 r.title
          = none := by
        rw [hdict, hrt]
        by_cases hc : (etOf db movies).contains m.title = true
        · exact absurd (List.elem_iff.mp hc) hnet
        · rw [if_neg hc]
      exact bulkUpdate_mem_of_none _ _ r hrin hnone

/-- The stored row the C1 witness updates. -/
def heatOldRec : MovieRec :=
  { id := 1, title := "Heat", release_year := some "1990",
    imdb_rating := some "7.0", director := none, cast := some "Unknown",
    plot_summary := none, duration := none, category := none }

/-- The stored row the C1 witness leaves untouched. -/
def alienRec : MovieRec :=
  { id := 2, title := "Alien", release_year := some "1979",
    imdb_rating := some "8.5", director := none, cast := some "Weaver",
    plot_summary := none, duration := none, category := none }

/-- The input dict matching the stored `"Heat"` row. -/
def heatInputW : MovieInput :=
  { title := "Heat", year := some "1995", rating := some "8.3",
    cast := some "Al Pacino", plot := some "Heist.",
    duration := some "2h 50m", category := some "R" }

/-- The input dict whose title is new to the table. -/
def matrixInputW : MovieInput :=
  { title := "Matrix", year := some "1999", rating := some "8.7",
    cast := some "Keanu Reeves", plot := some "Simulation.",
    duration := some "2h 16m", category := some "R" }

/-- The table used by the C1 witness. -/
def dbUpsertW : List MovieRec := [heatOldRec, alienRec]

/-- The input list used by the C1 witness. -/
def moviesUpsertW : List MovieInput := [heatInputW, matrixInputW]

/-- C1 witness: on the concrete table, the untouched row `"Alien"`
survives, the row `"Heat"` is updated in place with preserved id and
title, and a row titled `"Matrix"` is inserted. -/
theorem save_movies_upsert_witness :
    alienRec ∈ save_movies dbUpsertW 3 moviesUpsertW ∧
    (∃ m, lastAssign moviesUpsertW "Heat" = some m ∧ m.title = "Heat" ∧
      applyFields heatOldRec m ∈ save_movies dbUpsertW 3 moviesUpsertW ∧
      (applyFields heatOldRec m).id = 1 ∧
      (applyFields heatOldRec m).title = "Heat" ∧
      (applyFields heatOldRec m).release_year = m.year ∧
      (applyFields heatOldRec m).imdb_rating = m.rating ∧
      (applyFields heatOldRec m).cast = m.cast ∧
      (applyFields heatOldRec m).plot_summary = m.plot ∧
      (applyFields heatOldRec m).duration = m.duration ∧
      (applyFields heatOldRec m).category = m.category) ∧
    (∃ r ∈ save_movies dbUpsertW 3 moviesUpsertW, r.title = "Matrix") :=
  ⟨(save_movies_upserts_by_title dbUpsertW 3 moviesUpsertW (by decide)).1
      alienRec (by decide) (by decide),
   (save_movies_upserts_by_title dbUpsertW 3 moviesUpsertW
      (by decide)).2.1 heatOldRec (by decide) (by decide),
   (save_movies_upserts_by_title dbUpsertW 3 moviesUpsertW (by decide)).2.2
      matrixInputW (by decide) (by decide)⟩

end IMDbScraper
